import Mathlib

/-!
Verification of the streaming task/client core of the code-review
application.  The Lean definitions below are shallow embeddings of the
Python code in `src/llm_interface/review_task.py`,
`src/llm_interface/qwen_runner.py` and `src/config/app_config.py`:
pure functions become Lean functions, the mutable buffer and manager
state become explicit state passing, and the Qt signal emissions become
explicit event lists.
-/

namespace CodeReviewAI

/-! ### Configuration defaults (`src/config/app_config.py`, `DEFAULTS`) -/

def default_buffer_size : Nat := 20

def default_max_conversation_length : Nat := 50000

def default_max_retries : Nat := 3

/-! ### Python-fallback adaptive buffer (`BaseReviewTask`, review_task.py)

The buffer state is the list of pending tokens (`self._buffer`); every
operation returns the new buffer together with the list of content
chunks emitted through `content_ready` during the operation.
-/

/-- `BaseReviewTask._flush_python_buffer`: if the buffer is non-empty,
join it, clear it and emit the joined content. -/
def flush_python_buffer (buf : List String) : List String × List String :=
  if buf.isEmpty then (buf, []) else ([], [String.join buf])

/-- `BaseReviewTask._add_token`: no-op when cancelled; otherwise append
the token and flush once the buffer has reached `buffer_size`. -/
def add_token (buffer_size : Nat) (is_cancelled : Bool) (buf : List String)
    (token : String) : List String × List String :=
  if is_cancelled then (buf, [])
  else
    let buf1 := buf ++ [token]
    if buffer_size ≤ buf1.length then flush_python_buffer buf1 else (buf1, [])

/-- `BaseReviewTask._stop_streaming` (Python fallback path): flush any
remaining tokens. -/
def stop_streaming (buf : List String) : List String × List String :=
  flush_python_buffer buf

/-- Feed a sequence of tokens to the buffer via `_add_token`
(uncancelled), collecting all emitted chunks in order. -/
def feed_tokens (buffer_size : Nat) (buf : List String) :
    List String → List String × List String
  | [] => (buf, [])
  | t :: ts =>
    let r1 := add_token buffer_size false buf t
    let r2 := feed_tokens buffer_size r1.1 ts
    (r2.1, r1.2 ++ r2.2)

/-- All chunks emitted when a token sequence is fed to a fresh buffer
via `_add_token` and `_stop_streaming` is called at the end. -/
def buffered_stream (buffer_size : Nat) (tokens : List String) : List String :=
  let r := feed_tokens buffer_size [] tokens
  r.2 ++ (stop_streaming r.1).2

lemma join_append (l1 l2 : List String) :
    String.join (l1 ++ l2) = String.join l1 ++ String.join l2 := by
  apply String.ext
  simp

lemma join_cons (t : String) (ts : List String) :
    String.join (t :: ts) = t ++ String.join ts := by
  apply String.ext
  simp

lemma join_nil : String.join [] = "" := rfl

lemma join_singleton (t : String) : String.join [t] = t := by
  apply String.ext
  simp

lemma flush_python_buffer_join (buf : List String) :
    String.join (flush_python_buffer buf).2 = String.join buf ∧
      (flush_python_buffer buf).1 = [] ∨
      (flush_python_buffer buf) = (buf, []) ∧ buf = [] := by
  by_cases h : buf.isEmpty
  · right
    simp [flush_python_buffer, h, List.isEmpty_iff.mp h]
  · left
    simp [flush_python_buffer, h, String.join]

lemma add_token_join (buffer_size : Nat) (buf : List String) (t : String) :
    String.join (add_token buffer_size false buf t).2 ++
      String.join (add_token buffer_size false buf t).1 =
      String.join buf ++ t := by
  unfold add_token
  simp only [Bool.false_eq_true, if_false]
  by_cases h : buffer_size ≤ (buf ++ [t]).length
  · rw [if_pos h]
    have hne : ¬ (buf ++ [t]).isEmpty := by simp
    rw [flush_python_buffer, if_neg hne]
    rw [join_singleton, join_nil, String.append_empty, join_append, join_singleton]
  · rw [if_neg h]
    rw [join_nil, String.empty_append, join_append, join_singleton]

lemma feed_tokens_join (buffer_size : Nat) :
    ∀ (ts : List String) (buf : List String),
      String.join (feed_tokens buffer_size buf ts).2 ++
        String.join (feed_tokens buffer_size buf ts).1 =
        String.join buf ++ String.join ts
  | [], buf => by
    simp [feed_tokens, join_nil]
  | t :: ts, buf => by
    have h1 := add_token_join buffer_size buf t
    have h2 := feed_tokens_join buffer_size ts (add_token buffer_size false buf t).1
    simp only [feed_tokens, join_append]
    calc String.join (add_token buffer_size false buf t).2 ++
          String.join (feed_tokens buffer_size (add_token buffer_size false buf t).1 ts).2 ++
          String.join (feed_tokens buffer_size (add_token buffer_size false buf t).1 ts).1
        = String.join (add_token buffer_size false buf t).2 ++
          (String.join (feed_tokens buffer_size (add_token buffer_size false buf t).1 ts).2 ++
           String.join (feed_tokens buffer_size (add_token buffer_size false buf t).1 ts).1) := by
          rw [String.append_assoc]
      _ = String.join (add_token buffer_size false buf t).2 ++
          (String.join (add_token buffer_size false buf t).1 ++ String.join ts) := by rw [h2]
      _ = (String.join (add_token buffer_size false buf t).2 ++
           String.join (add_token buffer_size false buf t).1) ++ String.join ts := by
          rw [String.append_assoc]
      _ = (String.join buf ++ t) ++ String.join ts := by rw [h1]
      _ = String.join buf ++ (t ++ String.join ts) := by rw [String.append_assoc]
      _ = String.join buf ++ String.join (t :: ts) := by rw [join_cons]

/-- C1: for every token sequence fed to a Task's buffer via `_add_token`
(Python fallback path, never cancelled) with `_stop_streaming` called at
the end, the concatenation of all chunks emitted through `content_ready`,
in emission order, equals the concatenation of the input tokens in
arrival order. -/
theorem lossless_coalescing (buffer_size : Nat) (tokens : List String) :
    String.join (buffered_stream buffer_size tokens) = String.join tokens := by
  have h := feed_tokens_join buffer_size tokens []
  have hflush := flush_python_buffer_join (feed_tokens buffer_size [] tokens).1
  unfold buffered_stream stop_streaming
  rw [join_append]
  rcases hflush with ⟨hj, _⟩ | ⟨heq, hnil⟩
  · rw [hj]
    simpa [String.join] using h
  · rw [heq]
    simp only [String.join, List.foldl_nil]
    have := h
    rw [hnil] at this
    simpa [String.join] using this

/-! ### TaskManager (`review_task.py`)

Tasks are identified by their creation index in `tasks` (every task ever
created, in creation order); `current_task` holds the index of the
tracked task, if any.  A task records its kind and its `_is_cancelled`
flag (initialised to `false` in `BaseReviewTask.__init__`).
-/

inductive TaskKind
  | review
  | followup
deriving DecidableEq, Repr

structure MTask where
  kind : TaskKind
  is_cancelled : Bool
deriving DecidableEq, Repr

structure ManagerState where
  tasks : List MTask
  current_task : Option Nat
  task_history : List (TaskKind × Nat)
deriving DecidableEq, Repr

/-- The state of a fresh `TaskManager`. -/
def manager_init : ManagerState :=
  { tasks := [], current_task := none, task_history := [] }

/-- `BaseReviewTask.cancel` applied to the task with index `i`: sets its
`_is_cancelled` flag. -/
def cancel_task_at (w : ManagerState) (i : Nat) : ManagerState :=
  match w.tasks[i]? with
  | some t => { w with tasks := w.tasks.set i { t with is_cancelled := true } }
  | none => w

/-- `TaskManager._cancel_current_task`: cancel the current task if any
and clear the reference. -/
def cancel_current_task (w : ManagerState) : ManagerState :=
  match w.current_task with
  | none => w
  | some i => { cancel_task_at w i with current_task := none }

/-- `TaskManager.start_review`: cancel the current task, create a fresh
`ReviewTask`, store it as current and append to the history.  Returns
the new state and the new task's index. -/
def start_review (w : ManagerState) (code_len : Nat) : ManagerState × Nat :=
  let w1 := cancel_current_task w
  let i := w1.tasks.length
  ({ w1 with
      tasks := w1.tasks ++ [{ kind := TaskKind.review, is_cancelled := false }],
      current_task := some i,
      task_history := w1.task_history ++ [(TaskKind.review, code_len)] }, i)

/-- `TaskManager.start_followup`: same shape as `start_review` with a
fresh `FollowUpTask`. -/
def start_followup (w : ManagerState) (question_len : Nat) : ManagerState × Nat :=
  let w1 := cancel_current_task w
  let i := w1.tasks.length
  ({ w1 with
      tasks := w1.tasks ++ [{ kind := TaskKind.followup, is_cancelled := false }],
      current_task := some i,
      task_history := w1.task_history ++ [(TaskKind.followup, question_len)] }, i)

lemma cancel_current_task_tasks_length (w : ManagerState) :
    (cancel_current_task w).tasks.length = w.tasks.length := by
  unfold cancel_current_task cancel_task_at
  rcases w.current_task with _ | i
  · rfl
  · rcases h : w.tasks[i]? with _ | t <;> simp [h]

lemma cancel_current_task_cancels (w : ManagerState) (i : Nat) (t : MTask)
    (hcur : w.current_task = some i) (ht : w.tasks[i]? = some t) :
    (cancel_current_task w).tasks[i]? = some { t with is_cancelled := true } := by
  unfold cancel_current_task cancel_task_at
  rw [hcur]
  simp only [ht]
  have hi : i < w.tasks.length := (List.getElem?_eq_some_iff.mp ht).1
  simp [List.getElem?_set, hi]

lemma cancel_current_task_clears (w : ManagerState) (i : Nat)
    (hcur : w.current_task = some i) :
    (cancel_current_task w).current_task = none := by
  unfold cancel_current_task
  rw [hcur]

lemma start_review_preserves_lower (w : ManagerState) (l : Nat) (j : Nat)
    (hj : j < w.tasks.length) :
    (start_review w l).1.tasks[j]? = (cancel_current_task w).tasks[j]? := by
  unfold start_review
  have hj' : j < (cancel_current_task w).tasks.length := by
    rw [cancel_current_task_tasks_length]; exact hj
  simp [List.getElem?_append, hj']

/-- C2: every `start_review`/`start_followup` call first cancels the
previously current task (if any) and then stores exactly the newly
created task as current, and the `Option`-typed `current_task` field
tracks at most one task; in particular two successive `start_review`
calls leave the first task's cancelled flag set and only the second
task stored as current. -/
theorem at_most_one_task
    (w : ManagerState) (l1 l2 : Nat) (i : Nat) (t : MTask)
    (hcur : w.current_task = some i) (ht : w.tasks[i]? = some t) :
    ((start_review w l1).1.current_task = some (start_review w l1).2 ∧
      (start_followup w l1).1.current_task = some (start_followup w l1).2) ∧
    ((start_review w l1).1.tasks[i]? = some { t with is_cancelled := true } ∧
      (start_followup w l1).1.tasks[i]? = some { t with is_cancelled := true }) ∧
    ((start_review ((start_review w l1).1) l2).1.tasks[(start_review w l1).2]? =
        some { kind := TaskKind.review, is_cancelled := true } ∧
      (start_review ((start_review w l1).1) l2).1.current_task =
        some (start_review ((start_review w l1).1) l2).2 ∧
      (start_review w l1).2 ≠ (start_review ((start_review w l1).1) l2).2) := by
  have hi : i < w.tasks.length := (List.getElem?_eq_some_iff.mp ht).1
  refine ⟨⟨rfl, rfl⟩, ⟨?_, ?_⟩, ?_, rfl, ?_⟩
  · rw [start_review_preserves_lower w l1 i hi]
    exact cancel_current_task_cancels w i t hcur ht
  · unfold start_followup
    have hi' : i < (cancel_current_task w).tasks.length := by
      rw [cancel_current_task_tasks_length]; exact hi
    simp only [List.getElem?_append, hi', if_pos]
    exact cancel_current_task_cancels w i t hcur ht
  · -- the first task (at index `(start_review w l1).2`) is cancelled by
    -- the second call
    set w1 := (start_review w l1).1 with hw1
    have hcur1 : w1.current_task = some (start_review w l1).2 := rfl
    have ht1 : w1.tasks[(start_review w l1).2]? =
        some { kind := TaskKind.review, is_cancelled := false } := by
      rw [hw1]
      unfold start_review
      simp
    have := cancel_current_task_cancels w1 (start_review w l1).2 _ hcur1 ht1
    have hlt : (start_review w l1).2 < w1.tasks.length :=
      (List.getElem?_eq_some_iff.mp ht1).1
    rw [start_review_preserves_lower w1 l2 _ hlt]
    exact this
  · -- the indices of the two tasks differ
    have h2 : (start_review ((start_review w l1).1) l2).2 =
        (cancel_current_task (start_review w l1).1).tasks.length := rfl
    rw [h2, cancel_current_task_tasks_length]
    have h1 : (start_review w l1).1.tasks.length =
        (cancel_current_task w).tasks.length + 1 := by
      unfold start_review
      simp
    intro hcontra
    have hlen : (start_review w l1).2 = (cancel_current_task w).tasks.length := rfl
    omega

/-- Witness for C2 at a concrete manager state holding one current task. -/
theorem at_most_one_task_witness :
    ({ tasks := [{ kind := TaskKind.review, is_cancelled := false }],
       current_task := some 0,
       task_history := [(TaskKind.review, 3)] } : ManagerState).current_task = some 0 ∧
    (start_review
        { tasks := [{ kind := TaskKind.review, is_cancelled := false }],
          current_task := some 0,
          task_history := [(TaskKind.review, 3)] } 4).1.tasks[0]? =
      some { kind := TaskKind.review, is_cancelled := true } := by
  refine ⟨rfl, ?_⟩
  exact (at_most_one_task
    { tasks := [{ kind := TaskKind.review, is_cancelled := false }],
      current_task := some 0,
      task_history := [(TaskKind.review, 3)] } 4 5 0
    { kind := TaskKind.review, is_cancelled := false } rfl rfl).2.1.1

/-! ### Retry logic of `EnhancedLLMClient._stream_response` (qwen_runner.py)

One attempt = one `session.post` + `raise_for_status` + `_process_stream`
pass, wrapped in `_handle_request_errors`.  Its outcome is either a
successful token stream or one of the exception classes the wrapper
produces: `LLMConnectionError`, `LLMTimeoutError` (both retried),
`LLMResponseError`, plain `LLMError` (both re-raised immediately).
`attempts i` is the outcome of the `i`-th attempt; the result records
the backoff sleeps performed (in seconds, in order) together with the
final outcome.
-/

inductive AttemptOutcome
  | success (tokens : List String)
  | connection_error (msg : String)
  | timeout_error (msg : String)
  | response_error (msg : String)
  | other_error (msg : String)
deriving DecidableEq, Repr

inductive LLMErrKind
  | connection (msg : String)
  | timeout (msg : String)
  | response (msg : String)
  | other (msg : String)
deriving DecidableEq, Repr

/-- Outcomes retried by `_stream_response`: `LLMConnectionError` and
`LLMTimeoutError`. -/
def retryable : AttemptOutcome → Bool
  | AttemptOutcome.connection_error _ => true
  | AttemptOutcome.timeout_error _ => true
  | _ => false

/-- The error surfaced when an attempt with the given outcome is the
one whose exception propagates. -/
def outcome_err : AttemptOutcome → LLMErrKind
  | AttemptOutcome.connection_error m => LLMErrKind.connection m
  | AttemptOutcome.timeout_error m => LLMErrKind.timeout m
  | AttemptOutcome.response_error m => LLMErrKind.response m
  | AttemptOutcome.other_error m => LLMErrKind.other m
  | AttemptOutcome.success _ => LLMErrKind.other ""

/-- The retry loop of `_stream_response`, with `attempts_left =
max_retries - attempt`: a retryable failure with attempts left sleeps
`2 ^ attempt` seconds and retries; with none left it re-raises;
non-retryable failures re-raise immediately; success returns the
stream's tokens. -/
def stream_response_go (attempts : Nat → AttemptOutcome) :
    Nat → Nat → List Nat × Except LLMErrKind (List String)
  | attempts_left, attempt =>
    match attempts attempt with
    | AttemptOutcome.success toks => ([], Except.ok toks)
    | AttemptOutcome.connection_error m =>
      match attempts_left with
      | 0 => ([], Except.error (LLMErrKind.connection m))
      | n + 1 =>
        let r := stream_response_go attempts n (attempt + 1)
        (2 ^ attempt :: r.1, r.2)
    | AttemptOutcome.timeout_error m =>
      match attempts_left with
      | 0 => ([], Except.error (LLMErrKind.timeout m))
      | n + 1 =>
        let r := stream_response_go attempts n (attempt + 1)
        (2 ^ attempt :: r.1, r.2)
    | AttemptOutcome.response_error m => ([], Except.error (LLMErrKind.response m))
    | AttemptOutcome.other_error m => ([], Except.error (LLMErrKind.other m))

/-- `_stream_response`: `for attempt in range(max_retries + 1)` starting
with `attempt = 0`. -/
def stream_response (max_retries : Nat) (attempts : Nat → AttemptOutcome) :
    List Nat × Except LLMErrKind (List String) :=
  stream_response_go attempts max_retries 0

lemma stream_response_go_success (attempts : Nat → AttemptOutcome) :
    ∀ (k left att : Nat) (toks : List String), k ≤ left →
      (∀ i, i < k → retryable (attempts (att + i)) = true) →
      attempts (att + k) = AttemptOutcome.success toks →
      stream_response_go attempts left att =
        ((List.range k).map (fun i => 2 ^ (att + i)), Except.ok toks)
  | 0, left, att, toks, _, _, hsucc => by
    unfold stream_response_go
    simp only [Nat.add_zero] at hsucc
    split <;> simp_all
  | k + 1, left, att, toks, hk, hretry, hsucc => by
    have h0 : retryable (attempts (att + 0)) = true := hretry 0 (Nat.succ_pos k)
    simp only [Nat.add_zero] at h0
    obtain ⟨left', rfl⟩ : ∃ l, left = l + 1 := ⟨left - 1, by omega⟩
    have hrec := stream_response_go_success attempts k left' (att + 1) toks
      (by omega)
      (fun i hi => by
        have := hretry (i + 1) (by omega)
        simpa [Nat.add_assoc, Nat.add_comm 1 i] using this)
      (by
        have : att + 1 + k = att + (k + 1) := by omega
        rw [this]; exact hsucc)
    have hrange : (List.range (k + 1)).map (fun i => 2 ^ (att + i)) =
        2 ^ att :: (List.range k).map (fun i => 2 ^ (att + 1 + i)) := by
      rw [List.range_succ_eq_map]
      simp only [List.map_cons, List.map_map, Nat.add_zero]
      congr 1
      apply List.map_congr_left
      intro i _
      simp only [Function.comp_apply]
      congr 1
      omega
    unfold stream_response_go
    rcases hout : attempts att with toks' | m | m | m | m <;>
      simp [retryable, hout] at h0 ⊢ <;>
      rw [hrec] <;> simp [hrange]

lemma stream_response_go_exhaust (attempts : Nat → AttemptOutcome) :
    ∀ (left att : Nat),
      (∀ i, i ≤ left → retryable (attempts (att + i)) = true) →
      stream_response_go attempts left att =
        ((List.range left).map (fun i => 2 ^ (att + i)),
          Except.error (outcome_err (attempts (att + left))))
  | 0, att, hretry => by
    have h0 : retryable (attempts att) = true := by
      simpa using hretry 0 (Nat.le_refl 0)
    unfold stream_response_go
    rcases hout : attempts att with toks' | m | m | m | m <;>
      simp [retryable, hout] at h0 ⊢ <;> simp [outcome_err, hout]
  | left + 1, att, hretry => by
    have h0 : retryable (attempts att) = true := by
      simpa using hretry 0 (Nat.zero_le _)
    have hrec := stream_response_go_exhaust attempts left (att + 1)
      (fun i hi => by
        have := hretry (i + 1) (by omega)
        simpa [Nat.add_assoc, Nat.add_comm 1 i] using this)
    have hrange : (List.range (left + 1)).map (fun i => 2 ^ (att + i)) =
        2 ^ att :: (List.range left).map (fun i => 2 ^ (att + 1 + i)) := by
      rw [List.range_succ_eq_map]
      simp only [List.map_cons, List.map_map, Nat.add_zero]
      congr 1
      apply List.map_congr_left
      intro i _
      simp only [Function.comp_apply]
      congr 1
      omega
    have hshift : att + 1 + left = att + (left + 1) := by omega
    unfold stream_response_go
    rcases hout : attempts att with toks' | m | m | m | m <;>
      simp [retryable, hout] at h0 ⊢ <;>
      rw [hrec] <;> simp [hrange, hshift]

lemma stream_response_go_nonretryable (attempts : Nat → AttemptOutcome) :
    ∀ (k left att : Nat), k ≤ left →
      (∀ i, i < k → retryable (attempts (att + i)) = true) →
      retryable (attempts (att + k)) = false →
      (∀ toks, attempts (att + k) ≠ AttemptOutcome.success toks) →
      stream_response_go attempts left att =
        ((List.range k).map (fun i => 2 ^ (att + i)),
          Except.error (outcome_err (attempts (att + k))))
  | 0, left, att, _, _, hnr, hns => by
    simp only [Nat.add_zero] at hnr hns
    unfold stream_response_go
    rcases hout : attempts att with toks' | m | m | m | m <;>
      simp [retryable, hout] at hnr hns ⊢ <;> simp [outcome_err, hout]
  | k + 1, left, att, hk, hretry, hnr, hns => by
    have h0 : retryable (attempts (att + 0)) = true := hretry 0 (Nat.succ_pos k)
    simp only [Nat.add_zero] at h0
    obtain ⟨left', rfl⟩ : ∃ l, left = l + 1 := ⟨left - 1, by omega⟩
    have hshift : att + 1 + k = att + (k + 1) := by omega
    have hrec := stream_response_go_nonretryable attempts k left' (att + 1)
      (by omega)
      (fun i hi => by
        have := hretry (i + 1) (by omega)
        simpa [Nat.add_assoc, Nat.add_comm 1 i] using this)
      (by rw [hshift]; exact hnr)
      (by rw [hshift]; exact hns)
    have hrange : (List.range (k + 1)).map (fun i => 2 ^ (att + i)) =
        2 ^ att :: (List.range k).map (fun i => 2 ^ (att + 1 + i)) := by
      rw [List.range_succ_eq_map]
      simp only [List.map_cons, List.map_map, Nat.add_zero]
      congr 1
      apply List.map_congr_left
      intro i _
      simp only [Function.comp_apply]
      congr 1
      omega
    unfold stream_response_go
    rcases hout : attempts att with toks' | m | m | m | m <;>
      simp [retryable, hout] at h0 ⊢ <;>
      rw [hrec] <;> simp [hrange, hshift]

/-- C3: `_stream_response` (i) retries retryable attempts, sleeping
`2 ^ attempt` seconds before each retry, and when attempt `k ≤
max_retries` succeeds after `k` retryable failures the caller gets the
successful stream's tokens and no error, (ii) when all `max_retries + 1`
attempts fail retryably it performs `max_retries` backoff sleeps and
surfaces the last failure as the single error, and (iii) a non-retryable
(response-shaped) failure at attempt `k` propagates immediately with no
further sleep. -/
theorem retry_backoff_policy (max_retries : Nat) (attempts : Nat → AttemptOutcome) :
    (∀ k toks, k ≤ max_retries →
      (∀ i, i < k → retryable (attempts i) = true) →
      attempts k = AttemptOutcome.success toks →
      stream_response max_retries attempts =
        ((List.range k).map (fun i => 2 ^ i), Except.ok toks)) ∧
    ((∀ i, i ≤ max_retries → retryable (attempts i) = true) →
      stream_response max_retries attempts =
        ((List.range max_retries).map (fun i => 2 ^ i),
          Except.error (outcome_err (attempts max_retries)))) ∧
    (∀ k, k ≤ max_retries →
      (∀ i, i < k → retryable (attempts i) = true) →
      retryable (attempts k) = false →
      (∀ toks, attempts k ≠ AttemptOutcome.success toks) →
      stream_response max_retries attempts =
        ((List.range k).map (fun i => 2 ^ i),
          Except.error (outcome_err (attempts k)))) := by
  refine ⟨?_, ?_, ?_⟩
  · intro k toks hk hretry hsucc
    have := stream_response_go_success attempts k max_retries 0 toks hk
      (fun i hi => by simpa using hretry i hi) (by simpa using hsucc)
    simpa [stream_response] using this
  · intro hretry
    have := stream_response_go_exhaust attempts max_retries 0
      (fun i hi => by simpa using hretry i hi)
    simpa [stream_response] using this
  · intro k hk hretry hnr hns
    have := stream_response_go_nonretryable attempts k max_retries 0 hk
      (fun i hi => by simpa using hretry i hi) (by simpa using hnr)
      (by simpa using hns)
    simpa [stream_response] using this

/-- Witness for C3: with `max_retries = 3`, two connection failures then
a success yields the stream's tokens after sleeping 1 s and 2 s; four
retryable failures surface the last timeout after sleeping 1, 2 and 4 s;
an immediate response error propagates with no sleeps. -/
theorem retry_backoff_policy_witness :
    stream_response 3
        (fun i => if i < 2 then AttemptOutcome.connection_error "refused"
          else AttemptOutcome.success ["tok"]) =
      ([1, 2], Except.ok ["tok"]) ∧
    stream_response 3 (fun _ => AttemptOutcome.timeout_error "slow") =
      ([1, 2, 4], Except.error (LLMErrKind.timeout "slow")) ∧
    stream_response 3 (fun _ => AttemptOutcome.response_error "http 500") =
      ([], Except.error (LLMErrKind.response "http 500")) := by
  refine ⟨?_, ?_, ?_⟩
  · have := (retry_backoff_policy 3
      (fun i => if i < 2 then AttemptOutcome.connection_error "refused"
        else AttemptOutcome.success ["tok"])).1 2 ["tok"]
      (by decide) (fun i hi => by interval_cases i <;> decide) (by decide)
    simpa using this
  · have := (retry_backoff_policy 3
      (fun _ => AttemptOutcome.timeout_error "slow")).2.1
      (fun i _ => by decide)
    simpa [outcome_err] using this
  · have := (retry_backoff_policy 3
      (fun _ => AttemptOutcome.response_error "http 500")).2.2 0
      (by decide) (fun i hi => by omega) (by decide)
      (fun toks h => AttemptOutcome.noConfusion h)
    simpa [outcome_err] using this

/-! ### `EnhancedLLMClient._process_stream` (qwen_runner.py)

A response line is a decoded string.  `json.loads` followed by
`data.get("message", {}).get("content", "")` / `data.get("done", False)`
is modelled by a parse function into an optional record: `none` is a
`json.JSONDecodeError`, and a parsed record carries the extracted
`message.content` (defaulted to `""` when absent) and the `done` flag
(defaulted to `False`). -/

structure OllamaRecord where
  content : String
  done : Bool
deriving DecidableEq, Repr

/-- Python `line.startswith(p)`; Python strings index by code point, so
this is prefix testing on the character lists. -/
def py_starts_with (line p : String) : Bool :=
  List.isPrefixOf p.data line.data

/-- Python `s[n:]` for `n ≥ 0` (code-point slicing). -/
def py_drop (s : String) (n : Nat) : String :=
  String.mk (s.data.drop n)

/-- Python `s[:n]` for `n ≥ 0` (code-point slicing). -/
def py_take (s : String) (n : Nat) : String :=
  String.mk (s.data.take n)

/-- Python `len(s)`: the number of code points. -/
def py_len (s : String) : Nat :=
  s.data.length

/-- The `line[6:]` strip applied when `line.startswith("data: ")`. -/
def strip_data_marker (line : String) : String :=
  if py_starts_with line "data: " then py_drop line 6 else line

/-- `_process_stream` over the decoded response lines: skip empty lines,
strip the `"data: "` marker, skip unparsable lines, yield each
non-empty `message.content`, and stop after a record with `done`. -/
def process_stream (parse : String → Option OllamaRecord) :
    List String → List String
  | [] => []
  | line :: rest =>
    if line = "" then process_stream parse rest
    else
      match parse (strip_data_marker line) with
      | none => process_stream parse rest
      | some r =>
        let toks := if r.content = "" then [] else [r.content]
        if r.done then toks else toks ++ process_stream parse rest

lemma data_marker_ne_empty (s : String) : ("data: " ++ s) ≠ "" := by
  intro h
  have : ("data: " ++ s).data = [] := by rw [h]
  simp [String.data_append] at this

lemma strip_data_marker_append (s : String) :
    strip_data_marker ("data: " ++ s) = s := by
  unfold strip_data_marker py_starts_with py_drop
  have hpre : List.isPrefixOf "data: ".data ("data: " ++ s).data = true := by
    rw [String.data_append, List.isPrefixOf_iff_prefix]
    exact List.prefix_append _ _
  rw [if_pos hpre]
  have hlen : "data: ".data.length = 6 := by decide
  rw [String.data_append, ← hlen, List.drop_left]

/-- C6: `_process_stream` skips empty lines; a `"data: "`-prefixed line
is processed with the prefix stripped; a line that fails to parse is
skipped without terminating the stream; and a record with `done = true`
terminates the sequence right after any content on that same record has
been yielded. -/
theorem process_stream_spec (parse : String → Option OllamaRecord)
    (line : String) (s : String) (rest : List String) (r : OllamaRecord) :
    (process_stream parse ("" :: rest) = process_stream parse rest) ∧
    (process_stream parse (("data: " ++ s) :: rest) =
      match parse s with
      | none => process_stream parse rest
      | some r' =>
        let toks := if r'.content = "" then [] else [r'.content]
        if r'.done then toks else toks ++ process_stream parse rest) ∧
    (line ≠ "" → parse (strip_data_marker line) = none →
      process_stream parse (line :: rest) = process_stream parse rest) ∧
    (line ≠ "" → parse (strip_data_marker line) = some r → r.done = true →
      process_stream parse (line :: rest) =
        if r.content = "" then [] else [r.content]) := by
  refine ⟨?_, ?_, ?_, ?_⟩
  · simp [process_stream]
  · rw [process_stream, if_neg (data_marker_ne_empty s), strip_data_marker_append]
  · intro hne hparse
    rw [process_stream, if_neg hne, hparse]
  · intro hne hparse hdone
    rw [process_stream, if_neg hne, hparse]
    simp [hdone]

/-- Witness for C6: a short concrete stream exercising each clause. -/
theorem process_stream_spec_witness :
    (fun l => if l = "ok" then some ({ content := "A", done := false } : OllamaRecord)
      else if l = "fin" then some { content := "B", done := true }
      else none) (strip_data_marker "bad json") = none ∧
    (fun l => if l = "ok" then some ({ content := "A", done := false } : OllamaRecord)
      else if l = "fin" then some { content := "B", done := true }
      else none) (strip_data_marker "fin") = some { content := "B", done := true } ∧
    process_stream
        (fun l => if l = "ok" then some ({ content := "A", done := false } : OllamaRecord)
          else if l = "fin" then some { content := "B", done := true }
          else none)
        ("bad json" :: ["trailing"]) =
      process_stream
        (fun l => if l = "ok" then some ({ content := "A", done := false } : OllamaRecord)
          else if l = "fin" then some { content := "B", done := true }
          else none) ["trailing"] ∧
    process_stream
        (fun l => if l = "ok" then some ({ content := "A", done := false } : OllamaRecord)
          else if l = "fin" then some { content := "B", done := true }
          else none)
        ("fin" :: ["trailing"]) = ["B"] := by
  refine ⟨by decide, by decide, ?_, ?_⟩
  · exact (process_stream_spec
      (fun l => if l = "ok" then some { content := "A", done := false }
        else if l = "fin" then some { content := "B", done := true }
        else none)
      "bad json" "s" ["trailing"] { content := "B", done := true }).2.2.1
      (by decide) (by decide)
  · have := (process_stream_spec
      (fun l => if l = "ok" then some { content := "A", done := false }
        else if l = "fin" then some { content := "B", done := true }
        else none)
      "fin" "s" ["trailing"] { content := "B", done := true }).2.2.2
      (by decide) (by decide) rfl
    simpa using this

/-- C10: every token yielded by `_process_stream` is a non-empty string;
parsed lines whose `message.content` is absent or empty (such as a
done-only terminal record) contribute no token. -/
theorem process_stream_tokens_nonempty (parse : String → Option OllamaRecord) :
    ∀ (lines : List String) (t : String), t ∈ process_stream parse lines → t ≠ ""
  | [], t, ht => by simp [process_stream] at ht
  | line :: rest, t, ht => by
    rw [process_stream] at ht
    by_cases hline : line = ""
    · rw [if_pos hline] at ht
      exact process_stream_tokens_nonempty parse rest t ht
    · rw [if_neg hline] at ht
      rcases hparse : parse (strip_data_marker line) with _ | r

      · rw [hparse] at ht
        exact process_stream_tokens_nonempty parse rest t ht
      · rw [hparse] at ht
        simp only at ht
        by_cases hc : r.content = ""
        · rw [if_pos hc] at ht
          rcases hdone : r.done
          · rw [hdone] at ht
            simp only [Bool.false_eq_true, if_false, List.nil_append] at ht
            exact process_stream_tokens_nonempty parse rest t ht
          · rw [hdone] at ht
            simp at ht
        · rw [if_neg hc] at ht
          rcases hdone : r.done
          · rw [hdone] at ht
            simp only [Bool.false_eq_true, if_false] at ht
            rcases List.mem_append.mp ht with h | h
            · rw [List.mem_singleton.mp h]
              exact hc
            · exact process_stream_tokens_nonempty parse rest t h
          · rw [hdone] at ht
            simp only [if_true] at ht
            rw [List.mem_singleton.mp ht]
            exact hc

/-- Witness for C10 on a concrete stream containing a done-only record
and an unparsable line. -/
theorem process_stream_tokens_nonempty_witness :
    "A" ∈ process_stream
        (fun l => if l = "ok" then some ({ content := "A", done := false } : OllamaRecord)
          else if l = "end" then some { content := "", done := true }
          else none)
        ["ok", "oops", "end"] ∧
    "A" ≠ "" := by
  refine ⟨by decide, ?_⟩
  exact process_stream_tokens_nonempty
    (fun l => if l = "ok" then some { content := "A", done := false }
      else if l = "end" then some { content := "", done := true }
      else none)
    ["ok", "oops", "end"] "A" (by decide)

/-! ### Payload construction and truncation (qwen_runner.py) -/

/-- Python `s.strip()`: remove leading and trailing whitespace. -/
def py_strip (s : String) : String :=
  String.mk (((s.data.dropWhile Char.isWhitespace).reverse.dropWhile
    Char.isWhitespace).reverse)

/-- Python `s[-k:]`: for `k = 0` this is `s[0:]`, the whole string;
otherwise the last `min k (len s)` code points. -/
def py_slice_last (s : String) (k : Nat) : String :=
  if k = 0 then s else String.mk (s.data.drop (s.data.length - k))

structure Payload where
  model : String
  stream : Bool
  messages : List (String × String)
deriving DecidableEq, Repr

/-- The system message of `_create_review_payload`. -/
def review_system_message : String :=
  "You are an expert software engineer and code reviewer. Provide a comprehensive, constructive review of the provided Python code. Focus on:\n1. Code correctness and potential bugs\n2. Code style and readability\n3. Performance considerations\n4. Security concerns\n5. Best practices and improvements\n6. Documentation and comments\n\nFormat your response in clear, structured markdown."

/-- `EnhancedLLMClient._create_review_payload`. -/
def create_review_payload (model_name code : String) : Payload :=
  { model := model_name,
    stream := true,
    messages :=
      [("system", review_system_message),
       ("user", "Please review the following Python code:\n\n```python\n"
          ++ code ++ "\n```")] }

/-- The system message of `_create_followup_payload`. -/
def followup_system_message : String :=
  "You are continuing a code review conversation. Use the previous review as context and answer the user\x27s follow-up question in a helpful and detailed manner."

/-- `EnhancedLLMClient._create_followup_payload`. -/
def create_followup_payload (model_name original_review question : String) : Payload :=
  { model := model_name,
    stream := true,
    messages :=
      [("system", followup_system_message),
       ("user", "Previous review:\n\n" ++ original_review),
       ("user", "Follow-up question: " ++ question)] }

/-- The truncation marker appended by `stream_code_review`. -/
def truncation_marker : String := "\n\n# ... (truncated for length) ..."

/-- Validation and payload construction of
`EnhancedLLMClient.stream_code_review`: empty code raises `LLMError`,
oversized code is cut to `code[:max_code_length]` with the marker
appended. -/
def stream_code_review_payload (max_conversation_length : Nat)
    (model_name code : String) : Except String Payload :=
  if code = "" ∨ py_strip code = "" then
    Except.error "Empty code provided for review"
  else
    let max_code_length := max_conversation_length / 2
    let code1 :=
      if max_code_length < py_len code then
        py_take code max_code_length ++ truncation_marker
      else code
    Except.ok (create_review_payload model_name code1)

/-- Validation and payload construction of
`EnhancedLLMClient.stream_follow_up`: empty question raises `LLMError`,
an oversized review is replaced by `"...\n\n" +
original_review[-max_review_length:]`. -/
def stream_follow_up_payload (max_conversation_length : Nat)
    (model_name original_review question : String) : Except String Payload :=
  if question = "" ∨ py_strip question = "" then
    Except.error "Empty question provided for follow-up"
  else
    let max_review_length := max_conversation_length / 2
    let review1 :=
      if max_review_length < py_len original_review then
        "...\n\n" ++ py_slice_last original_review max_review_length
      else original_review
    Except.ok (create_followup_payload model_name review1 question)

/-- C7: when `original_review` is longer than
`max_conversation_length // 2`, the follow-up payload carries the
cap-sized tail of the review prefixed with the `"...\n\n"` truncation
marker (not the head), and a review at or under the cap passes through
unchanged. -/
theorem followup_truncation_tail_keep (max_conversation_length : Nat)
    (model_name original_review question : String)
    (hq : ¬(question = "" ∨ py_strip question = ""))
    (hcap : 0 < max_conversation_length / 2) :
    (max_conversation_length / 2 < py_len original_review →
      stream_follow_up_payload max_conversation_length model_name
          original_review question =
        Except.ok (create_followup_payload model_name
          ("...\n\n" ++ String.mk (original_review.data.drop
            (original_review.data.length - max_conversation_length / 2)))
          question) ∧
      py_len (String.mk (original_review.data.drop
        (original_review.data.length - max_conversation_length / 2))) =
        max_conversation_length / 2) ∧
    (py_len original_review ≤ max_conversation_length / 2 →
      stream_follow_up_payload max_conversation_length model_name
          original_review question =
        Except.ok (create_followup_payload model_name original_review question)) := by
  constructor
  · intro hlong
    constructor
    · simp only [stream_follow_up_payload, py_slice_last]
      rw [if_neg hq, if_pos hlong, if_neg (by omega)]
    · simp only [py_len, List.length_drop] at hlong ⊢
      omega
  · intro hshort
    have hnot : ¬ (max_conversation_length / 2 < py_len original_review) := by
      omega
    simp only [stream_follow_up_payload]
    rw [if_neg hq, if_neg hnot]

/-- Witness for C7: with the default cap `50000 / 2 = 25000`, a
25001-character review keeps its last 25000 characters behind the
marker; a short review is unchanged. -/
theorem followup_truncation_tail_keep_witness :
    ¬(("why" : String) = "" ∨ py_strip "why" = "") ∧
    0 < (50000 : Nat) / 2 ∧
    stream_follow_up_payload 50000 "qwen2.5-coder" "short review" "why" =
      Except.ok (create_followup_payload "qwen2.5-coder" "short review" "why") := by
  refine ⟨by decide, by decide, ?_⟩
  exact (followup_truncation_tail_keep 50000 "qwen2.5-coder" "short review" "why"
    (by decide) (by decide)).2 (by decide)

set_option maxRecDepth 100000 in
/-- C8 counterexample: with cap `4 / 2 = 2`, `stream_code_review` on
`"abcd"` sends the leading two characters `"ab"` with the marker, not
the trailing portion `"cd"` the claim describes. -/
theorem code_truncation_counterexample :
    stream_code_review_payload 4 "m" "abcd" =
      Except.ok (create_review_payload "m" ("ab" ++ truncation_marker)) ∧
    stream_code_review_payload 4 "m" "abcd" ≠
      Except.ok (create_review_payload "m" ("cd" ++ truncation_marker)) := by
  constructor
  · rfl
  · intro h
    have h0 : stream_code_review_payload 4 "m" "abcd" =
        Except.ok (create_review_payload "m" ("ab" ++ truncation_marker)) := rfl
    rw [h0] at h
    simp only [Except.ok.injEq] at h
    exact absurd h (by decide)

/-- C8 (amended): code longer than the cap is truncated by keeping the
leading (head) cap-sized portion — the oldest content, not the most
recent — with the truncation marker appended; code at or under the cap
is passed through unchanged. -/
theorem code_truncation_head_keep (max_conversation_length : Nat)
    (model_name code : String)
    (hv : ¬(code = "" ∨ py_strip code = "")) :
    (max_conversation_length / 2 < py_len code →
      stream_code_review_payload max_conversation_length model_name code =
        Except.ok (create_review_payload model_name
          (py_take code (max_conversation_length / 2) ++ truncation_marker)) ∧
      py_len (py_take code (max_conversation_length / 2)) =
        max_conversation_length / 2) ∧
    (py_len code ≤ max_conversation_length / 2 →
      stream_code_review_payload max_conversation_length model_name code =
        Except.ok (create_review_payload model_name code)) := by
  constructor
  · intro hlong
    constructor
    · simp only [stream_code_review_payload]
      rw [if_neg hv, if_pos hlong]
    · simp only [py_len, py_take, List.length_take] at hlong ⊢
      omega
  · intro hshort
    have hnot : ¬ (max_conversation_length / 2 < py_len code) := by omega
    simp only [stream_code_review_payload]
    rw [if_neg hv, if_neg hnot]

/-- Witness for C8 (amended) at a concrete oversized input. -/
theorem code_truncation_head_keep_witness :
    ¬(("abcd" : String) = "" ∨ py_strip "abcd" = "") ∧
    (4 : Nat) / 2 < py_len "abcd" ∧
    stream_code_review_payload 4 "m" "abcd" =
      Except.ok (create_review_payload "m" (py_take "abcd" 2 ++ truncation_marker)) := by
  refine ⟨by decide, by decide, ?_⟩
  exact ((code_truncation_head_keep 4 "m" "abcd" (by decide)).1 (by decide)).1

/-! ### `EnhancedLLMClient.test_connection` (qwen_runner.py)

The GET is modelled by a function from the requested URL and timeout
(seconds) to its result: either a status code or a raised exception.
`response.raise_for_status()` raises exactly for status codes in
`[400, 600)`; any exception is caught and turned into `False`. -/

inductive HttpResult
  | ok (status : Nat)
  | exc
deriving DecidableEq, Repr

/-- `EnhancedLLMClient.test_connection`. -/
def test_connection (get : String → Nat → HttpResult) (api_url : String) : Bool :=
  match get (api_url.replace "/api/chat" "/api/tags") 5 with
  | HttpResult.exc => false
  | HttpResult.ok status => if 400 ≤ status ∧ status < 600 then false else true

/-- C9 counterexample: a response with HTTP status 204 (not 200, and not
an error status) still makes `test_connection` return `True`, refuting
"returns True only when the response has HTTP status 200". -/
theorem test_connection_counterexample :
    test_connection (fun _ _ => HttpResult.ok 204)
      "http://localhost:11434/api/chat" = true ∧ (204 : Nat) ≠ 200 := by
  constructor
  · rfl
  · decide

/-- C9 (amended): `test_connection` issues a GET with a 5-second timeout
to the chat endpoint URL with `/api/chat` replaced by `/api/tags`, and
returns `True` exactly when that request completes without an exception
and its status is not an HTTP error status (400–599); on an error
status or on any exception it returns `False`. -/
theorem test_connection_spec (get : String → Nat → HttpResult) (api_url : String) :
    (∀ s, get (api_url.replace "/api/chat" "/api/tags") 5 = HttpResult.ok s →
      ¬(400 ≤ s ∧ s < 600) → test_connection get api_url = true) ∧
    (∀ s, get (api_url.replace "/api/chat" "/api/tags") 5 = HttpResult.ok s →
      400 ≤ s ∧ s < 600 → test_connection get api_url = false) ∧
    (get (api_url.replace "/api/chat" "/api/tags") 5 = HttpResult.exc →
      test_connection get api_url = false) := by
  refine ⟨?_, ?_, ?_⟩
  · intro s hs hok
    unfold test_connection
    rw [hs]
    show (if 400 ≤ s ∧ s < 600 then false else true) = true
    rw [if_neg hok]
  · intro s hs herr
    unfold test_connection
    rw [hs]
    show (if 400 ≤ s ∧ s < 600 then false else true) = false
    rw [if_pos herr]
  · intro hexc
    unfold test_connection
    rw [hexc]

/-- Witness for C9 (amended): success on 200, failure on 503 and on a
raised exception. -/
theorem test_connection_spec_witness :
    test_connection (fun _ _ => HttpResult.ok 200)
      "http://localhost:11434/api/chat" = true ∧
    test_connection (fun _ _ => HttpResult.ok 503)
      "http://localhost:11434/api/chat" = false ∧
    test_connection (fun _ _ => HttpResult.exc)
      "http://localhost:11434/api/chat" = false := by
  refine ⟨?_, ?_, ?_⟩
  · exact (test_connection_spec (fun _ _ => HttpResult.ok 200)
      "http://localhost:11434/api/chat").1 200 rfl (by omega)
  · exact (test_connection_spec (fun _ _ => HttpResult.ok 503)
      "http://localhost:11434/api/chat").2.1 503 rfl (by omega)
  · exact (test_connection_spec (fun _ _ => HttpResult.exc)
      "http://localhost:11434/api/chat").2.2 rfl

/-! ### `ReviewTask.run` and `FollowUpTask.run` (review_task.py)

A run is modelled as the list of observable events it produces, in
order: the four signal emissions plus a `stop_call` marker recording
each invocation of `_stop_streaming`.  Cooperative cancellation is
modelled by the token boundary `cancel_at` at which the `_is_cancelled`
flag becomes (and stays) set: the flag reads `true` at every check from
that boundary on.  `stream_exc` is an exception the token generator
raises after its last token (`LLMError` or any other exception); `none`
means the stream ends normally. -/

inductive Ev
  | content (s : String)
  | progress (s : String)
  | error (s : String)
  | finished
  | stop_call
deriving DecidableEq, Repr

/-- The value of `self._is_cancelled` at the check made after `i` stream
tokens have been consumed. -/
def cancelled_at (cancel_at : Option Nat) (i : Nat) : Bool :=
  match cancel_at with
  | none => false
  | some c => decide (c ≤ i)

inductive StreamExc
  | llm (msg : String)
  | other (msg : String)
deriving DecidableEq, Repr

inductive LoopExit
  | normal
  | cancelled
  | errored
deriving DecidableEq, Repr

/-- One `_stop_streaming` invocation on the given buffer: the marker
followed by the flushed content, if any. -/
def stop_streaming_ev (buf : List String) : List Ev :=
  Ev.stop_call :: (stop_streaming buf).2.map Ev.content

/-- The shared `for token in stream(...)` loop body of the two `run`
methods (they differ only in the progress cadence and message): check
cancellation, short-circuit on an `"[ERROR]"` token, `_add_token`,
count, and emit a progress update every `progress_every` tokens.
Returns the events, the final buffer and how the loop exited. -/
def task_loop (buffer_size : Nat) (cancel_at : Option Nat) (progress_every : Nat)
    (progress_msg : Nat → String) :
    List String → Nat → Nat → List String → List Ev × List String × LoopExit
  | [], _, _, buf => ([], buf, LoopExit.normal)
  | t :: ts, idx, token_count, buf =>
    if cancelled_at cancel_at idx then ([], buf, LoopExit.cancelled)
    else if py_starts_with t "[ERROR]" then ([Ev.error t], buf, LoopExit.errored)
    else
      let r := add_token buffer_size (cancelled_at cancel_at idx) buf t
      let tc := token_count + 1
      let prog := if tc % progress_every = 0 then [Ev.progress (progress_msg tc)] else []
      let rest := task_loop buffer_size cancel_at progress_every progress_msg ts
        (idx + 1) tc r.1
      (r.2.map Ev.content ++ prog ++ rest.1, rest.2.1, rest.2.2)

/-- The shared tail of the two `run` methods after the loop returns
`r = (events, buffer, exit)`: on normal exhaustion of the stream either
the generator's deferred exception reaches the `except` clause (error
signal, then the `finally` stop) or the explicit `_stop_streaming`,
the completion progress message and `finished` are followed by the
`finally` stop; on a `return` exit (cancellation or `[ERROR]` token)
only the `finally` stop runs. -/
def run_tail (pre : List Ev) (r : List Ev × List String × LoopExit)
    (stream_exc : Option StreamExc) (done_msg : String) : List Ev :=
  match r.2.2 with
  | LoopExit.normal =>
    match stream_exc with
    | some (StreamExc.llm m) =>
      pre ++ r.1 ++ [Ev.error ("LLM Error: " ++ m)] ++ stop_streaming_ev r.2.1
    | some (StreamExc.other m) =>
      pre ++ r.1 ++ [Ev.error ("Unexpected error: " ++ m)] ++ stop_streaming_ev r.2.1
    | none =>
      pre ++ r.1 ++ stop_streaming_ev r.2.1 ++
        [Ev.progress done_msg, Ev.finished] ++ stop_streaming_ev []
  | LoopExit.cancelled => pre ++ r.1 ++ stop_streaming_ev r.2.1
  | LoopExit.errored => pre ++ r.1 ++ stop_streaming_ev r.2.1

/-- `ReviewTask.run` (Python fallback streamer): validation, the token
loop, the explicit `_stop_streaming` before `finished` on normal
completion, the `except` clauses, and the `finally: _stop_streaming()`
on every path. -/
def review_run (buffer_size : Nat) (code : String) (tokens : List String)
    (cancel_at : Option Nat) (stream_exc : Option StreamExc) : List Ev :=
  if code = "" ∨ py_strip code = "" then
    [Ev.error "No code provided for review"] ++ stop_streaming_ev []
  else
    run_tail [Ev.progress "Starting code review..."]
      (task_loop buffer_size cancel_at 50
        (fun tc => "Received " ++ toString tc ++ " tokens...") tokens 0 0 [])
      stream_exc "Code review completed"

/-- `FollowUpTask.run`: same shape, with the question validation, the
injected separator token (fed through `_add_token` before the loop), a
cadence of 30 and its own messages.  `original_review` only feeds the
LLM request, which the abstract `tokens` stream stands for. -/
def follow_up_run (buffer_size : Nat) (original_review question : String)
    (tokens : List String) (cancel_at : Option Nat)
    (stream_exc : Option StreamExc) : List Ev :=
  if question = "" ∨ py_strip question = "" then
    [Ev.error "No question provided for follow-up"] ++ stop_streaming_ev []
  else
    let sep := add_token buffer_size (cancelled_at cancel_at 0) []
      ("\n\n---\n\n**Follow-up:** " ++ question ++ "\n\n")
    run_tail ([Ev.progress "Processing follow-up question..."] ++ sep.2.map Ev.content)
      (task_loop buffer_size cancel_at 30
        (fun tc => "Processing response... (" ++ toString tc ++ " tokens)") tokens 0 0 sep.1)
      stream_exc "Follow-up completed"

/-- Number of `_stop_streaming` invocations recorded in an event list. -/
def count_stops (evs : List Ev) : Nat :=
  evs.countP (fun e => decide (e = Ev.stop_call))

/-- `true` iff no `error` signal occurs in the event list. -/
def error_free (evs : List Ev) : Bool :=
  evs.all (fun e => match e with | Ev.error _ => false | _ => true)

/-- Concatenation of all `content_ready` emissions in an event list. -/
def content_concat (evs : List Ev) : String :=
  String.join (evs.filterMap (fun e => match e with | Ev.content s => some s | _ => none))

lemma flush_join (buf : List String) :
    String.join (flush_python_buffer buf).2 = String.join buf := by
  by_cases h : buf.isEmpty
  · simp [flush_python_buffer, h, List.isEmpty_iff.mp h, join_nil]
  · simp [flush_python_buffer, h, join_singleton]

lemma count_stops_append (xs ys : List Ev) :
    count_stops (xs ++ ys) = count_stops xs + count_stops ys :=
  List.countP_append _ _ _

lemma error_free_append (xs ys : List Ev) :
    error_free (xs ++ ys) = (error_free xs && error_free ys) :=
  List.all_append

lemma content_concat_append (xs ys : List Ev) :
    content_concat (xs ++ ys) = content_concat xs ++ content_concat ys := by
  unfold content_concat
  rw [List.filterMap_append, join_append]

lemma content_concat_map (l : List String) :
    content_concat (l.map Ev.content) = String.join l := by
  unfold content_concat
  congr 1
  induction l with
  | nil => rfl
  | cons x xs ih => simp_all

lemma count_stops_map_content (l : List String) :
    count_stops (l.map Ev.content) = 0 := by
  unfold count_stops
  rw [List.countP_eq_zero]
  intro e he
  rcases List.mem_map.mp he with ⟨s, _, rfl⟩
  simp

lemma count_stops_stop_ev (buf : List String) :
    count_stops (stop_streaming_ev buf) = 1 := by
  unfold stop_streaming_ev
  rw [show (Ev.stop_call :: (stop_streaming buf).2.map Ev.content) =
    [Ev.stop_call] ++ (stop_streaming buf).2.map Ev.content from rfl]
  rw [count_stops_append, count_stops_map_content]
  decide

lemma finished_not_mem_map_content (l : List String) :
    Ev.finished ∉ l.map Ev.content := by
  intro h
  rcases List.mem_map.mp h with ⟨s, _, hs⟩
  exact Ev.noConfusion hs

lemma finished_not_mem_stop_ev (buf : List String) :
    Ev.finished ∉ stop_streaming_ev buf := by
  unfold stop_streaming_ev
  intro h
  rcases List.mem_cons.mp h with h | h
  · exact Ev.noConfusion h
  · exact finished_not_mem_map_content _ h

lemma error_free_map_content (l : List String) :
    error_free (l.map Ev.content) = true := by
  unfold error_free
  rw [List.all_eq_true]
  intro e he
  rcases List.mem_map.mp he with ⟨s, _, rfl⟩
  rfl

lemma error_free_stop_ev (buf : List String) :
    error_free (stop_streaming_ev buf) = true := by
  unfold stop_streaming_ev
  rw [show (Ev.stop_call :: (stop_streaming buf).2.map Ev.content) =
    [Ev.stop_call] ++ (stop_streaming buf).2.map Ev.content from rfl]
  rw [error_free_append, error_free_map_content]
  rfl

lemma content_concat_stop_ev (buf : List String) :
    content_concat (stop_streaming_ev buf) = String.join buf := by
  unfold stop_streaming_ev
  rw [show (Ev.stop_call :: (stop_streaming buf).2.map Ev.content) =
    [Ev.stop_call] ++ (stop_streaming buf).2.map Ev.content from rfl]
  rw [content_concat_append, content_concat_map]
  have : content_concat [Ev.stop_call] = "" := rfl
  rw [this, String.empty_append]
  exact flush_join buf

lemma task_loop_clean (buffer_size : Nat) (cancel_at : Option Nat)
    (progress_every : Nat) (progress_msg : Nat → String) :
    ∀ (ts : List String) (idx token_count : Nat) (buf : List String),
      count_stops (task_loop buffer_size cancel_at progress_every progress_msg
        ts idx token_count buf).1 = 0 ∧
      Ev.finished ∉ (task_loop buffer_size cancel_at progress_every progress_msg
        ts idx token_count buf).1
  | [], idx, token_count, buf => by
    constructor
    · rfl
    · intro h
      simp [task_loop] at h
  | t :: ts, idx, token_count, buf => by
    rw [task_loop]
    by_cases hcan : cancelled_at cancel_at idx
    · rw [if_pos hcan]
      constructor
      · rfl
      · intro h
        simp at h
    · rw [if_neg hcan]
      by_cases herr : py_starts_with t "[ERROR]"
      · rw [if_pos herr]
        constructor
        · rfl
        · intro h
          simp at h
      · rw [if_neg herr]
        have ih := task_loop_clean buffer_size cancel_at progress_every progress_msg
          ts (idx + 1) (token_count + 1)
          (add_token buffer_size (cancelled_at cancel_at idx) buf t).1
        simp only
        constructor
        · rw [count_stops_append, count_stops_append, count_stops_map_content, ih.1]
          have : count_stops (if (token_count + 1) % progress_every = 0 then
              [Ev.progress (progress_msg (token_count + 1))] else []) = 0 := by
            split <;> rfl
          omega
        · intro h
          rcases List.mem_append.mp h with h | h
          · rcases List.mem_append.mp h with h | h
            · exact finished_not_mem_map_content _ h
            · revert h
              split <;> simp
          · exact ih.2 h

lemma run_tail_count (pre : List Ev) (r : List Ev × List String × LoopExit)
    (se : Option StreamExc) (dm : String)
    (hpre1 : Ev.finished ∉ pre) (hpre2 : count_stops pre = 0)
    (h1 : count_stops r.1 = 0) (h2 : Ev.finished ∉ r.1) :
    count_stops (run_tail pre r se dm) =
      if Ev.finished ∈ run_tail pre r se dm then 2 else 1 := by
  obtain ⟨evs, buf, ex⟩ := r
  simp only at h1 h2
  unfold run_tail
  cases ex
  · cases se with
    | none =>
      simp only
      rw [if_pos (by
        refine List.mem_append.mpr (Or.inl ?_)
        refine List.mem_append.mpr (Or.inr ?_)
        simp)]
      simp only [count_stops_append, count_stops_stop_ev, h1, hpre2]
      rfl
    | some e =>
      cases e <;>
      · simp only
        rw [if_neg (by
          intro h
          rcases List.mem_append.mp h with h | h
          · rcases List.mem_append.mp h with h | h
            · rcases List.mem_append.mp h with h | h
              · exact hpre1 h
              · exact h2 h
            · simp at h
          · exact finished_not_mem_stop_ev _ h)]
        simp only [count_stops_append, count_stops_stop_ev, h1, hpre2]
        rfl
  · simp only
    rw [if_neg (by
      intro h
      rcases List.mem_append.mp h with h | h
      · rcases List.mem_append.mp h with h | h
        · exact hpre1 h
        · exact h2 h
      · exact finished_not_mem_stop_ev _ h)]
    simp only [count_stops_append, count_stops_stop_ev, h1, hpre2]
  · simp only
    rw [if_neg (by
      intro h
      rcases List.mem_append.mp h with h | h
      · rcases List.mem_append.mp h with h | h
        · exact hpre1 h
        · exact h2 h
      · exact finished_not_mem_stop_ev _ h)]
    simp only [count_stops_append, count_stops_stop_ev, h1, hpre2]

/-- C5 counterexample: on a normally completing run (valid code, one
token, no cancellation, no exception) `_stop_streaming` is invoked
twice — once explicitly before `finished` and once in the `finally`
block — not exactly once. -/
theorem stop_once_counterexample :
    count_stops (review_run 20 "x" ["a"] none none) ≠ 1 ∧
    count_stops (review_run 20 "x" ["a"] none none) = 2 := by
  constructor
  · decide
  · decide

/-- C5 (amended): on every exit path of `ReviewTask.run` and
`FollowUpTask.run`, the buffer's stop/flush is invoked at least once;
it is invoked exactly once on every early-exit path (validation
failure, cancellation, `[ERROR]`-token short-circuit, exception) and
exactly twice on normal completion — the path emitting `finished` —
where the second invocation flushes an already-empty buffer. -/
theorem stop_flush_every_path (buffer_size : Nat) (code original_review question : String)
    (tokens1 tokens2 : List String) (ca1 ca2 : Option Nat)
    (se1 se2 : Option StreamExc) :
    count_stops (review_run buffer_size code tokens1 ca1 se1) =
      (if Ev.finished ∈ review_run buffer_size code tokens1 ca1 se1 then 2 else 1) ∧
    count_stops (follow_up_run buffer_size original_review question tokens2 ca2 se2) =
      (if Ev.finished ∈ follow_up_run buffer_size original_review question
          tokens2 ca2 se2 then 2 else 1) := by
  constructor
  · unfold review_run
    by_cases hval : code = "" ∨ py_strip code = ""
    · rw [if_pos hval]
      rw [if_neg (by
        intro h
        rcases List.mem_append.mp h with h | h
        · simp at h
        · exact finished_not_mem_stop_ev _ h)]
      rw [count_stops_append, count_stops_stop_ev]
      rfl
    · rw [if_neg hval]
      have hloop := task_loop_clean buffer_size ca1 50
        (fun tc => "Received " ++ toString tc ++ " tokens...") tokens1 0 0 []
      exact run_tail_count _ _ _ _ (by simp) rfl hloop.1 hloop.2
  · unfold follow_up_run
    by_cases hval : question = "" ∨ py_strip question = ""
    · rw [if_pos hval]
      rw [if_neg (by
        intro h
        rcases List.mem_append.mp h with h | h
        · simp at h
        · exact finished_not_mem_stop_ev _ h)]
      rw [count_stops_append, count_stops_stop_ev]
      rfl
    · rw [if_neg hval]
      have hloop := task_loop_clean buffer_size ca2 30
        (fun tc => "Processing response... (" ++ toString tc ++ " tokens)") tokens2 0 0
        (add_token buffer_size (cancelled_at ca2 0) []
          ("\n\n---\n\n**Follow-up:** " ++ question ++ "\n\n")).1
      refine run_tail_count _ _ _ _ ?_ ?_ hloop.1 hloop.2
      · intro h
        rcases List.mem_append.mp h with h | h
        · simp at h
        · exact finished_not_mem_map_content _ h
      · rw [count_stops_append, count_stops_map_content]
        rfl

lemma run_tail_cancelled (pre : List Ev) (r : List Ev × List String × LoopExit)
    (se : Option StreamExc) (dm : String) (h : r.2.2 = LoopExit.cancelled) :
    run_tail pre r se dm = pre ++ r.1 ++ stop_streaming_ev r.2.1 := by
  obtain ⟨evs, buf, ex⟩ := r
  simp only at h
  subst h
  rfl

lemma content_concat_prog (p : Prop) [Decidable p] (s : String) :
    content_concat (if p then [Ev.progress s] else []) = "" := by
  split <;> rfl

lemma error_free_prog (p : Prop) [Decidable p] (s : String) :
    error_free (if p then [Ev.progress s] else []) = true := by
  split <;> rfl

lemma task_loop_cancel (buffer_size progress_every : Nat)
    (progress_msg : Nat → String) (c : Nat) :
    ∀ (ts : List String) (idx token_count : Nat) (buf : List String),
      idx ≤ c → c - idx < ts.length →
      (∀ t ∈ ts.take (c - idx), py_starts_with t "[ERROR]" = false) →
      (task_loop buffer_size (some c) progress_every progress_msg ts
        idx token_count buf).2.2 = LoopExit.cancelled ∧
      error_free (task_loop buffer_size (some c) progress_every progress_msg ts
        idx token_count buf).1 = true ∧
      content_concat (task_loop buffer_size (some c) progress_every progress_msg ts
          idx token_count buf).1 ++
        String.join (task_loop buffer_size (some c) progress_every progress_msg ts
          idx token_count buf).2.1 =
        String.join buf ++ String.join (ts.take (c - idx))
  | [], idx, token_count, buf => by
    intro hle hlt htake
    simp at hlt
  | t :: ts, idx, token_count, buf => by
    intro hle hlt htake
    rw [task_loop]
    by_cases hidx : c ≤ idx
    · have hcan : cancelled_at (some c) idx = true := by
        simp [cancelled_at, hidx]
      rw [if_pos hcan]
      refine ⟨rfl, rfl, ?_⟩
      have h0 : c - idx = 0 := by omega
      rw [h0]
      show "" ++ String.join buf = String.join buf ++ String.join []
      rw [join_nil, String.empty_append, String.append_empty]
    · have hcan : ¬ (cancelled_at (some c) idx = true) := by
        simp [cancelled_at]
        omega
      rw [if_neg hcan]
      have hsplit : c - idx = (c - (idx + 1)) + 1 := by omega
      have htcons : (t :: ts).take (c - idx) = t :: ts.take (c - (idx + 1)) := by
        rw [hsplit, List.take_succ_cons]
      have herr_t : py_starts_with t "[ERROR]" = false := by
        apply htake
        rw [htcons]
        exact List.mem_cons_self _ _
      rw [if_neg (by simp [herr_t])]
      have hfalse : cancelled_at (some c) idx = false := by
        simp [cancelled_at]
        omega
      have ih := task_loop_cancel buffer_size progress_every progress_msg c ts
        (idx + 1) (token_count + 1)
        (add_token buffer_size (cancelled_at (some c) idx) buf t).1
        (by omega) (by simp at hlt; omega)
        (by
          intro t' ht'
          apply htake
          rw [htcons]
          exact List.mem_cons_of_mem _ ht')
      simp only
      refine ⟨ih.1, ?_, ?_⟩
      · rw [error_free_append, error_free_append, error_free_map_content,
          error_free_prog, ih.2.1]
        rfl
      · rw [content_concat_append, content_concat_append, content_concat_map,
          content_concat_prog, String.append_empty]
        have hadd := add_token_join buffer_size buf t
        rw [hfalse] at *
        calc String.join (add_token buffer_size false buf t).2 ++
              content_concat (task_loop buffer_size (some c) progress_every
                progress_msg ts (idx + 1) (token_count + 1)
                (add_token buffer_size false buf t).1).1 ++
              String.join (task_loop buffer_size (some c) progress_every
                progress_msg ts (idx + 1) (token_count + 1)
                (add_token buffer_size false buf t).1).2.1
            = String.join (add_token buffer_size false buf t).2 ++
              (content_concat (task_loop buffer_size (some c) progress_every
                progress_msg ts (idx + 1) (token_count + 1)
                (add_token buffer_size false buf t).1).1 ++
              String.join (task_loop buffer_size (some c) progress_every
                progress_msg ts (idx + 1) (token_count + 1)
                (add_token buffer_size false buf t).1).2.1) := by
              rw [String.append_assoc]
          _ = String.join (add_token buffer_size false buf t).2 ++
              (String.join (add_token buffer_size false buf t).1 ++
                String.join (ts.take (c - (idx + 1)))) := by rw [ih.2.2]
          _ = (String.join (add_token buffer_size false buf t).2 ++
                String.join (add_token buffer_size false buf t).1) ++
                String.join (ts.take (c - (idx + 1))) := by rw [String.append_assoc]
          _ = (String.join buf ++ t) ++ String.join (ts.take (c - (idx + 1))) := by
              rw [hadd]
          _ = String.join buf ++ (t ++ String.join (ts.take (c - (idx + 1)))) := by
              rw [String.append_assoc]
          _ = String.join buf ++ String.join ((t :: ts).take (c - idx)) := by
              rw [htcons, join_cons]

/-- C4: once `cancel()` has been called (the cancelled flag is set at
token boundary `c`, with further tokens still in flight), the remaining
tokens never reach the buffer — the concatenation of all emitted
content is exactly the tokens consumed before the cancellation — the
run emits neither an `error` nor a `finished` notification, and
`_add_token` is a no-op whenever the cancelled flag is set. -/
theorem cancellation_no_emit (buffer_size : Nat) (code : String)
    (tokens : List String) (c : Nat) (se : Option StreamExc)
    (hvalid : ¬(code = "" ∨ py_strip code = ""))
    (hc : c < tokens.length)
    (herr : ∀ t ∈ tokens.take c, py_starts_with t "[ERROR]" = false) :
    error_free (review_run buffer_size code tokens (some c) se) = true ∧
    Ev.finished ∉ review_run buffer_size code tokens (some c) se ∧
    content_concat (review_run buffer_size code tokens (some c) se) =
      String.join (tokens.take c) ∧
    (∀ (n : Nat) (buf : List String) (t : String),
      add_token n true buf t = (buf, [])) := by
  have hcan := task_loop_cancel buffer_size 50
    (fun tc => "Received " ++ toString tc ++ " tokens...") c tokens 0 0 []
    (Nat.zero_le c) (by simpa using hc) (by simpa using herr)
  have hclean := task_loop_clean buffer_size (some c) 50
    (fun tc => "Received " ++ toString tc ++ " tokens...") tokens 0 0 []
  unfold review_run
  rw [if_neg hvalid]
  rw [run_tail_cancelled _ _ _ _ hcan.1]
  refine ⟨?_, ?_, ?_, ?_⟩
  · rw [error_free_append, error_free_append, hcan.2.1, error_free_stop_ev]
    rfl
  · intro h
    rcases List.mem_append.mp h with h | h
    · rcases List.mem_append.mp h with h | h
      · simp at h
      · exact hclean.2 h
    · exact finished_not_mem_stop_ev _ h
  · rw [content_concat_append, content_concat_append, content_concat_stop_ev]
    have hpre : content_concat [Ev.progress "Starting code review..."] = "" := rfl
    rw [hpre, String.empty_append]
    have h3 := hcan.2.2
    rw [Nat.sub_zero, join_nil, String.empty_append] at h3
    exact h3
  · intro n buf t
    simp [add_token]

/-- Witness for C4: buffer size 2, valid code, cancellation after the
first of three tokens. -/
theorem cancellation_no_emit_witness :
    ¬(("x" : String) = "" ∨ py_strip "x" = "") ∧
    1 < (["a", "b", "c"] : List String).length ∧
    (∀ t ∈ (["a", "b", "c"] : List String).take 1,
      py_starts_with t "[ERROR]" = false) ∧
    (error_free (review_run 2 "x" ["a", "b", "c"] (some 1) none) = true ∧
     Ev.finished ∉ review_run 2 "x" ["a", "b", "c"] (some 1) none ∧
     content_concat (review_run 2 "x" ["a", "b", "c"] (some 1) none) =
       String.join ((["a", "b", "c"] : List String).take 1) ∧
     ∀ (n : Nat) (buf : List String) (t : String),
       add_token n true buf t = (buf, [])) := by
  refine ⟨by decide, by decide, by decide, ?_⟩
  exact cancellation_no_emit 2 "x" ["a", "b", "c"] 1 none
    (by decide) (by decide) (by decide)

end CodeReviewAI
